import Mathlib

/-!
Verification of the pocdb core against its specification.

This file is a shallow embedding of the pocdb daemon (src/pocdb.cc together
with src/common.h): the Paxos data model (ballots, pvalues), the byte-level
records kept in the durable map (leveldb), the acceptor and learner handlers,
the per-key write state machine (proposer), and the slice of the dispatcher
needed by the claims.  C++ uint64 arithmetic is modelled by Nat with an
explicit truncation modulo 2^64 at the places the code increments a counter;
byte strings are lists of byte values; the durable map is a store interface
with explicit read and write outcomes so that storage failures can be
injected; messages sent over busybee are collected in a list.
-/

namespace Pocdb

/-- Opaque byte strings (C++ std::string / e::slice): lists of byte values. -/
abbrev Bytes := List Nat

/-- Truncating uint64 increment: the image of a C++ prefix increment on a
uint64 counter. -/
def u64succ (n : Nat) : Nat := (n + 1) % (2 ^ 64)

/-- Paxos ballot, from struct ballot in src/pocdb.cc: a (number, leader) pair
of uint64s.  The default-constructed ballot (0, 0) is the sentinel. -/
structure Ballot where
  number : Nat
  leader : Nat
deriving DecidableEq

/-- Strict ballot order, from the less-than operator of struct ballot:
lexicographic on (number, leader). -/
def Ballot.lt (a c : Ballot) : Prop :=
  a.number < c.number ∨ (a.number = c.number ∧ a.leader < c.leader)

instance : DecidableRel Ballot.lt := fun a c => by
  unfold Ballot.lt; infer_instance

/-- PValue, from struct pvalue: a ballot paired with a value. -/
structure PValue where
  b : Ballot
  v : Bytes
deriving DecidableEq

/-- The default-constructed pvalue: sentinel ballot, empty value. -/
def PValue.sentinel : PValue := ⟨⟨0, 0⟩, []⟩

/-! Cluster constants from src/common.h. -/

def HOSTA : Nat := 0xdeadbeef00000000
def HOSTB : Nat := 0xbad1deaf00000000
def HOSTC : Nat := 0x1eaff00d00000000
def HOSTD : Nat := 0xdefec8ed00000000
def HOSTE : Nat := 0xcafebabe00000000
def NUM_HOSTS : Nat := 5
def QUORUM : Nat := NUM_HOSTS / 2 + 1
def HOSTS : List Nat := [HOSTA, HOSTB, HOSTC, HOSTD, HOSTE]

/-! Byte-level encodings.  The e::packer serializes uint64 big-endian and a
slice as a 32-bit big-endian length followed by the raw bytes.  The learner
appends the raw in-memory bytes of a uint64 to the value, read back with an
unaligned load in get_acceptor_state; on the x86 hosts this build targets,
those are the little-endian bytes. -/

/-- Big-endian bytes of the low 8·w bits of n, most significant first. -/
def beBytes : Nat → Nat → Bytes
  | 0, _ => []
  | w + 1, n => beBytes w (n / 256) ++ [n % 256]

def be64 (n : Nat) : Bytes := beBytes 8 n
def be32 (n : Nat) : Bytes := beBytes 4 n

/-- Little-endian bytes of the low 8·w bits of n, least significant first. -/
def leBytes : Nat → Nat → Bytes
  | 0, _ => []
  | w + 1, n => n % 256 :: leBytes w (n / 256)

/-- The 8 raw bytes the learner appends to a learned value. -/
def le64 (n : Nat) : Bytes := leBytes 8 n

/-- The unaligned uint64 load get_acceptor_state performs on the last 8 bytes
of a learned record. -/
def le64dec (bs : Bytes) : Nat := bs.foldr (fun b acc => acc * 256 + b) 0

/-- e::unpacker reading one big-endian uint64; fails when fewer than 8 bytes
remain. -/
def rdU64 (bs : Bytes) : Option (Nat × Bytes) :=
  if bs.length < 8 then none
  else some ((bs.take 8).foldl (fun acc b => acc * 256 + b) 0, bs.drop 8)

/-- e::unpacker reading a length-prefixed slice (32-bit big-endian length). -/
def rdSlice (bs : Bytes) : Option (Bytes × Bytes) :=
  if bs.length < 4 then none
  else
    let n := (bs.take 4).foldl (fun acc b => acc * 256 + b) 0
    let r := bs.drop 4
    if r.length < n then none else some (r.take n, r.drop n)

/-- Encoding of a ballot, from the packer overload: number then leader. -/
def encBallot (b : Ballot) : Bytes := be64 b.number ++ be64 b.leader

/-- Encoding of a pvalue: ballot then length-prefixed value. -/
def encPValue (p : PValue) : Bytes := encBallot p.b ++ (be32 p.v.length ++ p.v)

/-- Encoding of the acceptor record persisted by save_acceptor_state:
version, promised ballot, accepted pvalue. -/
def encAcc (ver : Nat) (b : Ballot) (p : PValue) : Bytes :=
  be64 ver ++ encBallot b ++ encPValue p

/-- Decoding of an acceptor record, as get_acceptor_state unpacks it. -/
def decAcc (bs : Bytes) : Option (Nat × Ballot × PValue) := do
  let (ver, r1) ← rdU64 bs
  let (bn, r2) ← rdU64 r1
  let (bl, r3) ← rdU64 r2
  let (pn, r4) ← rdU64 r3
  let (pl, r5) ← rdU64 r4
  let (v, _) ← rdSlice r5
  some (ver, ⟨bn, bl⟩, ⟨⟨pn, pl⟩, v⟩)

/-! The durable map.  leveldb Get either finds a value, reports not-found, or
fails; Put either succeeds or fails.  A Store fixes the outcome of every read
and write a handler performs, so that the honest store built from a key-value
association list and stores with injected faults use the same handler
definitions. -/

/-- Outcome of a leveldb Get. -/
inductive GetRes where
  | found (v : Bytes)
  | missing
  | ioerr
deriving DecidableEq

/-- The durable map as one handler invocation sees it. -/
structure Store where
  get : Bytes → GetRes
  putOk : Bytes → Bytes → Bool

/-- A key-value association list standing for the leveldb contents. -/
abbrev Db := List (Bytes × Bytes)

def dbFind (db : Db) (k : Bytes) : Option Bytes :=
  (db.find? (fun e => e.1 == k)).map (fun e => e.2)

def dbPut (db : Db) (k v : Bytes) : Db := (k, v) :: db

/-- Apply the puts a handler performed, in order. -/
def applyPuts (db : Db) (ps : List (Bytes × Bytes)) : Db :=
  ps.foldl (fun d p => dbPut d p.1 p.2) db

/-- The honest store over a database: reads hit the map, writes succeed. -/
def Store.ofDb (db : Db) : Store :=
  { get := fun k => match dbFind db k with
      | some v => .found v
      | none => .missing
    putOk := fun _ _ => true }

/-- Per-key acceptor slot: the user key with discriminator byte 0x41, the
ASCII code of the letter appended by the C++ handlers. -/
def accKey (k : Bytes) : Bytes := k ++ [65]

/-- Per-key learned slot: the user key with discriminator byte 0x4c. -/
def lrnKey (k : Bytes) : Bytes := k ++ [76]

/-! Return codes from pocdb.h. -/

def POCDB_SUCCESS : Nat := 0
def POCDB_NOT_FOUND : Nat := 1
def POCDB_SERVER_ERROR : Nat := 3

/-- Messages sent through busybee, by type tag, plus the two client replies. -/
inductive Msg where
  | phase1a (dst : Nat) (k : Bytes) (ver : Nat) (b : Ballot)
  | phase1b (dst : Nat) (k : Bytes) (ver : Nat) (b : Ballot) (p : PValue)
  | phase2a (dst : Nat) (k : Bytes) (ver : Nat) (b : Ballot) (p : PValue)
  | phase2b (dst : Nat) (k : Bytes) (ver : Nat) (b : Ballot)
  | learn (dst : Nat) (k : Bytes) (ver : Nat) (v : Bytes)
  | retryMsg (dst : Nat) (k : Bytes)
  | putResp (dst : Nat) (rc : Nat)
  | getResp (dst : Nat) (rc : Nat) (v : Bytes)
deriving DecidableEq

def Msg.isLearn : Msg → Bool
  | .learn _ _ _ _ => true
  | _ => false

/-! Acceptor and learner handlers.  Each handler returns the list of puts it
successfully persisted (applied to the durable map in order) and the list of
messages it sent. -/

/-- pocdaemon::get_acceptor_state.  Loads the acceptor record (absent means
version 0, sentinel ballot, sentinel pvalue and an immediate return), then
folds in the learned record: when the learned version equals the acceptor
version that decree is closed, so the version advances and ballot and pvalue
reset.  Returns none on POCDB_SERVER_ERROR (read failure or corrupt record). -/
def get_acceptor_state (st : Store) (k : Bytes) : Option (Nat × Ballot × PValue) :=
  match st.get (accKey k) with
  | .missing => some (0, ⟨0, 0⟩, PValue.sentinel)
  | .ioerr => none
  | .found val =>
    match decAcc val with
    | none => none
    | some (ver, b, v) =>
      let written : Nat :=
        match st.get (lrnKey k) with
        | .found lv => le64dec (lv.drop (lv.length - 8))
        | _ => 0
      if ver = written then some (u64succ ver, ⟨0, 0⟩, PValue.sentinel)
      else some (ver, b, v)

/-- pocdaemon::process_phase1a.  Accepts when the sender names itself as the
ballot leader, the ballot beats the promised one and the version is current
or later; on acceptance persists (ver, b, unchanged pvalue) synchronously.
Replies with the (possibly updated) acceptor state; aborts silently when the
durable map fails. -/
def process_phase1a (st : Store) (c : Nat) (k : Bytes) (ver : Nat) (b : Ballot) :
    List (Bytes × Bytes) × List Msg :=
  match get_acceptor_state st k with
  | none => ([], [])
  | some (cv, cb, cpv) =>
    if c = b.leader ∧ Ballot.lt cb b ∧ cv ≤ ver then
      if st.putOk (accKey k) (encAcc ver b cpv) then
        ([(accKey k, encAcc ver b cpv)], [Msg.phase1b c k ver b cpv])
      else ([], [])
    else ([], [Msg.phase1b c k cv cb cpv])

/-- pocdaemon::process_phase2a.  On a matching (version, promised ballot)
persists the proposed pvalue synchronously and acknowledges with a phase-2b
message; otherwise tells the proposer to retry.  Aborts silently when the
durable map fails. -/
def process_phase2a (st : Store) (c : Nat) (k : Bytes) (ver : Nat) (b : Ballot)
    (v : PValue) : List (Bytes × Bytes) × List Msg :=
  match get_acceptor_state st k with
  | none => ([], [])
  | some (cv, cb, _) =>
    if ver = cv ∧ b = cb then
      if st.putOk (accKey k) (encAcc ver b v) then
        ([(accKey k, encAcc ver b v)], [Msg.phase2b c k cv cb])
      else ([], [])
    else ([], [Msg.retryMsg c k])

/-- pocdaemon::process_learn.  Persists value-with-version-suffix under the
learned slot unconditionally (the XXX comment in the source notes the missing
version guard); sends nothing, whether or not the put succeeds. -/
def process_learn (st : Store) (k : Bytes) (ver : Nat) (v : Bytes) :
    List (Bytes × Bytes) × List Msg :=
  let val := v ++ le64 ver
  if st.putOk (lrnKey k) val then ([(lrnKey k, val)], []) else ([], [])

/-- pocdaemon::process_get.  Reads the learned slot; missing yields
POCDB_NOT_FOUND and a read failure yields POCDB_SERVER_ERROR, in both cases
with the untouched (empty) value buffer.  The version suffix is dropped only
when the record is strictly longer than 8 bytes.  A reply is always sent. -/
def process_get (st : Store) (c : Nat) (k : Bytes) :
    List (Bytes × Bytes) × List Msg :=
  match st.get (lrnKey k) with
  | .missing => ([], [Msg.getResp c POCDB_NOT_FOUND []])
  | .ioerr => ([], [Msg.getResp c POCDB_SERVER_ERROR []])
  | .found val =>
    let out := if val.length > 8 then val.take (val.length - 8) else val
    ([], [Msg.getResp c POCDB_SUCCESS out])

/-! The write state machine (proposer), from struct write_state_machine. -/

/-- In-memory per-key proposer state.  values is the FIFO of pending client
writes (client id, value); promises and accepted are the plain vectors the
code pushes acknowledging hosts onto. -/
structure WSM where
  key : Bytes
  values : List (Nat × Bytes)
  executing_paxos : Bool
  leading : Ballot
  promises : List Nat
  accepted : List Nat
  max_accepted : PValue
  version : Nat
deriving DecidableEq

/-- The freshly constructed state for a key (all members default-initialized). -/
def initWSM (k : Bytes) : WSM :=
  ⟨k, [], false, ⟨0, 0⟩, [], [], PValue.sentinel, 0⟩

/-- The daemon context a handler threads in: own host id and the wallclock
read when a round starts. -/
structure Ctx where
  host : Nat
  now : Nat

/-- Start of a new round inside work_state_machine: fresh ballot from the
wallclock and own host, cleared promise and accept sets, max_accepted seeded
with the head-of-queue value under the sentinel ballot.  none marks the
front access on an empty queue. -/
def startRound (d : Ctx) (s : WSM) : Option WSM :=
  match s.values with
  | [] => none
  | (_, v0) :: _ =>
    some { s with executing_paxos := true,
                  leading := ⟨d.now, d.host⟩,
                  promises := [], accepted := [],
                  max_accepted := ⟨⟨0, 0⟩, v0⟩ }

/-- write_state_machine::work_state_machine with its recursion fed by fuel.
The source recurses after abandoning an outbid round and after a decision;
both re-entries happen with executing_paxos false and provably return without
recursing again, so any fuel of at least 2 computes the function (the
top-level entry point uses 2).  none marks a front access on an empty queue
or exhausted fuel, both of which the reachability invariant rules out. -/
def workAux (d : Ctx) : Nat → WSM → Option (WSM × List Msg)
  | 0, _ => none
  | n + 1, s =>
    if s.executing_paxos = false ∧ s.values = [] then some (s, [])
    else
      match (if s.executing_paxos then some s else startRound d s) with
      | none => none
      | some s1 =>
        if Ballot.lt s1.leading s1.max_accepted.b then
          workAux d n { s1 with executing_paxos := false }
        else if s1.promises.length < QUORUM then
          some (s1, (HOSTS.filter (fun h2 => !(s1.promises.contains h2))).map
                      (fun h2 => Msg.phase1a h2 s1.key s1.version s1.leading))
        else if s1.accepted.length < QUORUM then
          let s2 := { s1 with max_accepted := ⟨s1.leading, s1.max_accepted.v⟩ }
          some (s2, (HOSTS.filter (fun h2 => !(s2.accepted.contains h2))).map
                      (fun h2 => Msg.phase2a h2 s2.key s2.version s2.leading
                                   s2.max_accepted))
        else
          match s1.values with
          | [] => none
          | (c0, v0) :: rest =>
            let learns := HOSTS.map
              (fun h2 => Msg.learn h2 s1.key s1.version s1.max_accepted.v)
            let s2 := { s1 with executing_paxos := false,
                                version := u64succ s1.version }
            let step :=
              if s1.max_accepted.v = v0 then
                ({ s2 with values := rest }, [Msg.putResp c0 POCDB_SUCCESS])
              else (s2, ([] : List Msg))
            match workAux d n step.1 with
            | none => none
            | some (s4, ms) => some (s4, learns ++ step.2 ++ ms)

/-- The driver as entered by the entry points (fuel 2 suffices, see workAux). -/
def work_state_machine (d : Ctx) (s : WSM) : Option (WSM × List Msg) :=
  workAux d 2 s

/-- write_state_machine::write: append the client write and advance. -/
def WSM.write (d : Ctx) (s : WSM) (c : Nat) (v : Bytes) :
    Option (WSM × List Msg) :=
  work_state_machine d { s with values := s.values ++ [(c, v)] }

/-- write_state_machine::phase1b.  An outbid ballot or a version strictly
above a nonzero current version abandons the round; otherwise the version is
overwritten with the one reported, max_accepted is raised to a higher
non-sentinel reported pvalue, and the sender is pushed onto promises. -/
def WSM.phase1b (d : Ctx) (s : WSM) (c : Nat) (ver : Nat) (b : Ballot)
    (v : PValue) : Option (WSM × List Msg) :=
  if (s.version ≠ 0 ∧ s.version < ver) ∨ Ballot.lt s.leading b then
    work_state_machine d { s with executing_paxos := false, version := ver }
  else
    let ma := if v.b ≠ (⟨0, 0⟩ : Ballot) ∧ Ballot.lt s.max_accepted.b v.b
              then v else s.max_accepted
    work_state_machine d
      { s with version := ver, max_accepted := ma,
               promises := s.promises ++ [c] }

/-- write_state_machine::phase2b: a mismatched (version, leading) returns at
once; a match pushes the sender onto accepted and advances. -/
def WSM.phase2b (d : Ctx) (s : WSM) (c : Nat) (ver : Nat) (b : Ballot) :
    Option (WSM × List Msg) :=
  if ver ≠ s.version ∨ b ≠ s.leading then some (s, [])
  else work_state_machine d { s with accepted := s.accepted ++ [c] }

/-- write_state_machine::retry: abandon, bump the version, advance. -/
def WSM.retry (d : Ctx) (s : WSM) : Option (WSM × List Msg) :=
  work_state_machine d
    { s with executing_paxos := false, version := u64succ s.version }

/-! The slice of the dispatcher the claims need: the per-key table and the
retry handler. -/

/-- The per-key state table, e::state_hash_table, as a total map defaulting
to the freshly constructed machine (get_or_create_state). -/
abbrev WriteMap := Bytes → WSM

def initWrites : WriteMap := fun k => initWSM k

def WriteMap.upd (m : WriteMap) (k : Bytes) (s : WSM) : WriteMap :=
  fun k2 => if k2 = k then s else m k2

/-- pocdaemon::process_retry.  The source declares the key slice but never
unpacks it from the message, so the slice stays empty and the machine looked
up is the one for the empty key, whatever key the message carries. -/
def process_retry (d : Ctx) (m : WriteMap) (_c : Nat) (_msgKey : Bytes) :
    Option (WriteMap × List Msg) :=
  let k : Bytes := []
  match WSM.retry d (m k) with
  | none => none
  | some (s1, ms) => some (m.upd k s1, ms)

/-! Invariant and reachability of the write state machine. -/

/-- The safety invariant: a round in flight implies a pending write. -/
def wsmInv (s : WSM) : Prop := s.executing_paxos = true → s.values ≠ []

/-- States of one write state machine reachable from its construction under
any sequence of the four entry points (only steps that complete, that is,
that never touch the front of an empty queue and never exhaust the fuel). -/
inductive Reach (d : Ctx) : WSM → Prop where
  | init (k : Bytes) : Reach d (initWSM k)
  | wr {s s1 : WSM} {ms : List Msg} {c : Nat} {v : Bytes} :
      Reach d s → WSM.write d s c v = some (s1, ms) → Reach d s1
  | p1b {s s1 : WSM} {ms : List Msg} {c ver : Nat} {b : Ballot} {v : PValue} :
      Reach d s → WSM.phase1b d s c ver b v = some (s1, ms) → Reach d s1
  | p2b {s s1 : WSM} {ms : List Msg} {c ver : Nat} {b : Ballot} :
      Reach d s → WSM.phase2b d s c ver b = some (s1, ms) → Reach d s1
  | rty {s s1 : WSM} {ms : List Msg} :
      Reach d s → WSM.retry d s = some (s1, ms) → Reach d s1

/-! Concrete inputs used by counterexamples and witnesses. -/

/-- Sequencing of write-state-machine operations: feed the state produced by
one entry point into the next. -/
def cxStep (p : Option (WSM × List Msg)) (f : WSM → Option (WSM × List Msg)) :
    Option (WSM × List Msg) :=
  p.bind (fun q => f q.1)

def cxCtx : Ctx := ⟨HOSTA, 10⟩

/-- A run of one write state machine in which host B acknowledges phase 2
twice (the proposer re-sends phase-2a to every host not yet in accepted, so a
host that answers each copy is pushed twice): write, three promises, then
phase-2b from B, B again, and C. -/
def c2trace : Option (WSM × List Msg) :=
  cxStep (cxStep (cxStep (cxStep (cxStep (cxStep
    (WSM.write cxCtx (initWSM [120]) 1 [49])
    (fun s => WSM.phase1b cxCtx s HOSTA 0 ⟨10, HOSTA⟩ PValue.sentinel))
    (fun s => WSM.phase1b cxCtx s HOSTB 0 ⟨10, HOSTA⟩ PValue.sentinel))
    (fun s => WSM.phase1b cxCtx s HOSTC 0 ⟨10, HOSTA⟩ PValue.sentinel))
    (fun s => WSM.phase2b cxCtx s HOSTB 0 ⟨10, HOSTA⟩))
    (fun s => WSM.phase2b cxCtx s HOSTB 0 ⟨10, HOSTA⟩))
    (fun s => WSM.phase2b cxCtx s HOSTC 0 ⟨10, HOSTA⟩)

/-- A proposer state at the decision step whose accepted vector holds host B
twice. -/
def c2decState : WSM :=
  ⟨[119], [(4, [52])], true, ⟨12, HOSTB⟩, [HOSTA, HOSTB, HOSTC],
   [HOSTB, HOSTB, HOSTC], ⟨⟨12, HOSTB⟩, [52]⟩, 0⟩

/-- The outcome of running the driver on c2decState. -/
def c2decResult : WSM × List Msg :=
  (⟨[119], [], false, ⟨12, HOSTB⟩, [HOSTA, HOSTB, HOSTC],
    [HOSTB, HOSTB, HOSTC], ⟨⟨12, HOSTB⟩, [52]⟩, 1⟩,
   HOSTS.map (fun h2 => Msg.learn h2 [119] 0 [52]) ++
     [Msg.putResp 4 POCDB_SUCCESS])

/-- A proposer state at the decision step of a round for version 0. -/
def c5state : WSM :=
  ⟨[121], [(2, [50])], true, ⟨11, HOSTA⟩, [HOSTA, HOSTB, HOSTC],
   [HOSTA, HOSTB, HOSTD], ⟨⟨11, HOSTA⟩, [50]⟩, 0⟩

/-- A proposer mid-round at version 5, used to exhibit a stale phase-1b. -/
def c6state : WSM :=
  ⟨[122], [(3, [51])], true, ⟨10, HOSTA⟩, [HOSTA], [], ⟨⟨0, 0⟩, [51]⟩, 5⟩

/-- A proposer mid-round at version 4, input of the amended-claim witness. -/
def c6wit : WSM :=
  ⟨[123], [(5, [53])], true, ⟨12, HOSTA⟩, [], [], ⟨⟨0, 0⟩, [53]⟩, 4⟩

/-- An idle machine for key 0x78 at version 5. -/
def c7wsm : WSM := ⟨[120], [(1, [49])], false, ⟨0, 0⟩, [], [], PValue.sentinel, 5⟩

/-- A per-key table whose machine for key 0x78 is c7wsm. -/
def c7map : WriteMap := fun k => if k = [120] then c7wsm else initWSM k

/-- A store on which every read fails. -/
def errStore : Store := { get := fun _ => .ioerr, putOk := fun _ _ => true }

/-- A store reading an empty database on which every write fails. -/
def noPutStore : Store := { get := (Store.ofDb []).get, putOk := fun _ _ => false }

/-! General lemmas about the driver. -/

/-- No ballot is below the sentinel. -/
theorem Ballot.not_lt_sentinel (b : Ballot) : ¬ Ballot.lt b ⟨0, 0⟩ := by
  simp [Ballot.lt]

/-- The driver on an idle machine with an empty queue returns at once, at any
fuel. -/
theorem workAux_idle_nil (d : Ctx) (s : WSM) (n : Nat)
    (hex : s.executing_paxos = false) (hv : s.values = []) :
    workAux d (n + 1) s = some (s, []) := by
  unfold workAux
  simp [hex, hv]

/-- The driver on an idle machine with a pending write starts a round and
broadcasts phase-1a to all hosts, at any fuel: the freshly seeded
max_accepted ballot is the sentinel, so the abandon branch cannot fire, and
the cleared promise set is below quorum. -/
theorem workAux_idle_cons (d : Ctx) (s : WSM) (n : Nat) (c : Nat) (v : Bytes)
    (t : List (Nat × Bytes)) (hex : s.executing_paxos = false)
    (hv : s.values = (c, v) :: t) :
    workAux d (n + 1) s =
      some ({ s with executing_paxos := true, leading := ⟨d.now, d.host⟩,
                     promises := [], accepted := [],
                     max_accepted := ⟨⟨0, 0⟩, v⟩ },
            HOSTS.map (fun h2 => Msg.phase1a h2 s.key s.version ⟨d.now, d.host⟩)) := by
  unfold workAux
  simp [hex, hv, startRound, Ballot.not_lt_sentinel, QUORUM, NUM_HOSTS, HOSTS]

/-- On idle machines the driver never recurses, so its fuel is irrelevant. -/
theorem workAux_idle_fuel (d : Ctx) (s : WSM) (m n : Nat)
    (hex : s.executing_paxos = false) :
    workAux d (m + 1) s = workAux d (n + 1) s := by
  match hv : s.values with
  | [] => rw [workAux_idle_nil d s m hex hv, workAux_idle_nil d s n hex hv]
  | (c, v) :: t =>
      rw [workAux_idle_cons d s m c v t hex hv, workAux_idle_cons d s n c v t hex hv]

/-- Abandon branch: a round in flight whose max_accepted ballot beats the
leading ballot restarts the driver with executing_paxos false. -/
theorem workAux_exec_abandon (d : Ctx) (s : WSM) (n : Nat)
    (hex : s.executing_paxos = true)
    (hlt : Ballot.lt s.leading s.max_accepted.b) :
    workAux d (n + 1) s = workAux d n { s with executing_paxos := false } := by
  conv_lhs => unfold workAux
  simp [hex, hlt]

/-- Phase-1 branch: promises below quorum broadcast phase-1a to the hosts not
yet promising. -/
theorem workAux_exec_phase1 (d : Ctx) (s : WSM) (n : Nat)
    (hex : s.executing_paxos = true)
    (hnlt : ¬ Ballot.lt s.leading s.max_accepted.b)
    (hp : s.promises.length < QUORUM) :
    workAux d (n + 1) s =
      some (s, (HOSTS.filter (fun h2 => !(s.promises.contains h2))).map
                 (fun h2 => Msg.phase1a h2 s.key s.version s.leading)) := by
  conv_lhs => unfold workAux
  simp [hex, hnlt, hp]

/-- Phase-2 branch: promises at quorum and accepts below quorum raise
max_accepted to the leading ballot and broadcast phase-2a to the hosts not
yet accepting. -/
theorem workAux_exec_phase2 (d : Ctx) (s : WSM) (n : Nat)
    (hex : s.executing_paxos = true)
    (hnlt : ¬ Ballot.lt s.leading s.max_accepted.b)
    (hp : ¬ s.promises.length < QUORUM)
    (ha : s.accepted.length < QUORUM) :
    workAux d (n + 1) s =
      some ({ s with max_accepted := ⟨s.leading, s.max_accepted.v⟩ },
            (HOSTS.filter (fun h2 => !(s.accepted.contains h2))).map
              (fun h2 => Msg.phase2a h2 s.key s.version s.leading
                           ⟨s.leading, s.max_accepted.v⟩)) := by
  conv_lhs => unfold workAux
  simp [hex, hnlt, hp, ha]

/-- Decision branch: both quorums reached.  Learns go to all hosts, the round
closes, the version advances, the head of the queue is popped with a success
reply exactly when the decided value is the head value, and the driver
re-enters. -/
theorem workAux_exec_decision (d : Ctx) (s : WSM) (n : Nat) (c0 : Nat) (v0 : Bytes)
    (rest : List (Nat × Bytes))
    (hex : s.executing_paxos = true)
    (hnlt : ¬ Ballot.lt s.leading s.max_accepted.b)
    (hp : ¬ s.promises.length < QUORUM)
    (ha : ¬ s.accepted.length < QUORUM)
    (hvs : s.values = (c0, v0) :: rest) :
    workAux d (n + 1) s =
      (workAux d n
        { s with executing_paxos := false, version := u64succ s.version,
                 values := if s.max_accepted.v = v0 then rest else s.values }).map
        (fun p => (p.1,
          HOSTS.map (fun h2 => Msg.learn h2 s.key s.version s.max_accepted.v) ++
          (if s.max_accepted.v = v0 then [Msg.putResp c0 POCDB_SUCCESS] else []) ++
          p.2)) := by
  by_cases hpop : s.max_accepted.v = v0
  · conv_lhs => unfold workAux
    simp [hex, hnlt, hp, ha, hvs, hpop]
    cases workAux d n
        { s with executing_paxos := false, version := u64succ s.version,
                 values := rest } with
    | none => rfl
    | some p => rfl
  · conv_lhs => unfold workAux
    simp [hex, hnlt, hp, ha, hvs, hpop]
    cases workAux d n
        { s with executing_paxos := false, version := u64succ s.version,
                 values := (c0, v0) :: rest } with
    | none => rfl
    | some p => rfl

/-- On an idle machine the driver completes, preserves the invariant, and
emits no learn message. -/
theorem work_idle_spec (d : Ctx) (s : WSM) (hex : s.executing_paxos = false) :
    ∃ p, work_state_machine d s = some p ∧ wsmInv p.1 ∧
      ∀ m ∈ p.2, m.isLearn = false := by
  match hv : s.values with
  | [] =>
      refine ⟨(s, []), ?_, ?_, ?_⟩
      · exact workAux_idle_nil d s 1 hex hv
      · intro h; rw [hex] at h; cases h
      · intro m hm; cases hm
  | (c, v) :: t =>
      refine ⟨_, workAux_idle_cons d s 1 c v t hex hv, ?_, ?_⟩
      · intro _; simp [hv]
      · intro m hm
        simp only [List.mem_map] at hm
        obtain ⟨h2, _, rfl⟩ := hm
        rfl

/-- On any machine satisfying the invariant, the driver completes and the
result satisfies the invariant. -/
theorem work_total_inv (d : Ctx) (s : WSM) (h : wsmInv s) :
    ∃ p, work_state_machine d s = some p ∧ wsmInv p.1 := by
  by_cases hex : s.executing_paxos = true
  · have hv : s.values ≠ [] := h hex
    by_cases hlt : Ballot.lt s.leading s.max_accepted.b
    · rw [work_state_machine, workAux_exec_abandon d s 1 hex hlt]
      have hex2 : ({ s with executing_paxos := false } : WSM).executing_paxos = false := rfl
      obtain ⟨p, hp, hinv, _⟩ := work_idle_spec d { s with executing_paxos := false } hex2
      exact ⟨p, by rw [← hp]; exact workAux_idle_fuel d _ 0 1 hex2, hinv⟩
    · by_cases hp : s.promises.length < QUORUM
      · rw [work_state_machine, workAux_exec_phase1 d s 1 hex hlt hp]
        exact ⟨_, rfl, h⟩
      · by_cases ha : s.accepted.length < QUORUM
        · rw [work_state_machine, workAux_exec_phase2 d s 1 hex hlt hp ha]
          exact ⟨_, rfl, fun _ => h hex⟩
        · match hvs : s.values with
          | [] => exact absurd hvs hv
          | (c0, v0) :: rest =>
            rw [work_state_machine, workAux_exec_decision d s 1 c0 v0 rest hex hlt hp ha hvs]
            set s3 : WSM :=
              { s with executing_paxos := false, version := u64succ s.version,
                       values := if s.max_accepted.v = v0 then rest else s.values } with hs3
            have hex3 : s3.executing_paxos = false := rfl
            obtain ⟨p, hp3, hinv, _⟩ := work_idle_spec d s3 hex3
            have hp4 : workAux d 1 s3 = some p := by
              rw [← hp3]; exact workAux_idle_fuel d s3 0 1 hex3
            rw [hp4]
            exact ⟨_, rfl, hinv⟩
  · rw [Bool.not_eq_true] at hex
    obtain ⟨p, hp, hinv, _⟩ := work_idle_spec d s hex
    exact ⟨p, hp, hinv⟩

/-- The write entry point always completes with the invariant: the queue it
hands the driver is never empty. -/
theorem write_total_inv (d : Ctx) (s : WSM) (c : Nat) (v : Bytes) :
    ∃ p, WSM.write d s c v = some p ∧ wsmInv p.1 := by
  apply work_total_inv
  intro _
  simp

/-- The phase1b entry point preserves completion and the invariant. -/
theorem phase1b_total_inv (d : Ctx) (s : WSM) (c ver : Nat) (b : Ballot) (v : PValue)
    (h : wsmInv s) :
    ∃ p, WSM.phase1b d s c ver b v = some p ∧ wsmInv p.1 := by
  rw [WSM.phase1b]
  split
  · apply work_total_inv
    intro hx; cases hx
  · apply work_total_inv
    intro hx
    exact h hx

/-- The phase2b entry point preserves completion and the invariant. -/
theorem phase2b_total_inv (d : Ctx) (s : WSM) (c ver : Nat) (b : Ballot)
    (h : wsmInv s) :
    ∃ p, WSM.phase2b d s c ver b = some p ∧ wsmInv p.1 := by
  rw [WSM.phase2b]
  split
  · exact ⟨(s, []), rfl, h⟩
  · apply work_total_inv
    intro hx
    exact h hx

/-- The retry entry point always completes with the invariant. -/
theorem retry_total_inv (d : Ctx) (s : WSM) :
    ∃ p, WSM.retry d s = some p ∧ wsmInv p.1 := by
  apply work_total_inv
  intro hx; cases hx

/-- Every reachable write-state-machine state satisfies the invariant. -/
theorem reach_inv (d : Ctx) (s : WSM) (h : Reach d s) : wsmInv s := by
  induction h with
  | init k => intro hx; cases hx
  | wr hr hop ih =>
      obtain ⟨p, hp, hinv⟩ := write_total_inv d _ _ _
      rw [hop] at hp
      cases hp
      exact hinv
  | p1b hr hop ih =>
      obtain ⟨p, hp, hinv⟩ := phase1b_total_inv d _ _ _ _ _ ih
      rw [hop] at hp
      cases hp
      exact hinv
  | p2b hr hop ih =>
      obtain ⟨p, hp, hinv⟩ := phase2b_total_inv d _ _ _ _ ih
      rw [hop] at hp
      cases hp
      exact hinv
  | rty hr hop ih =>
      obtain ⟨p, hp, hinv⟩ := retry_total_inv d _
      rw [hop] at hp
      cases hp
      exact hinv

/-! Claim theorems. -/

/-- Claim C1.  The claim requires the learner to overwrite the learned record
only when the incoming version is strictly greater than the stored one.  The
handler persists unconditionally (as its own XXX comment admits): learning
version 2 and then version 1 for the same key leaves the record at version 1,
a rollback.  This evaluation exhibits the failing input. -/
theorem C1_learner_overwrites_unconditionally :
    (let db1 := applyPuts [] (process_learn (Store.ofDb []) [120] 2 [98]).1
     let db2 := applyPuts db1 (process_learn (Store.ofDb db1) [120] 1 [97]).1
     dbFind db1 (lrnKey [120]) = some ([98] ++ le64 2) ∧
     dbFind db2 (lrnKey [120]) = some ([97] ++ le64 1)) ∧
    le64dec (le64 1) < le64dec (le64 2) := by decide

/-- Claim C2, counterexample.  A reachable run in which the learn broadcast
happens while the accepted vector is [B, B, C]: host B was pushed twice, so
only two distinct hosts ever sent phase-2b, not the three the claim asserts.
The trace reaches the decision step from a fresh machine by one write, three
promises, and phase-2b messages from B, B again, and C. -/
theorem C2_counterexample_duplicate_acceptor :
    c2trace.map (fun p => (p.1.accepted, p.2.any Msg.isLearn)) =
      some ([HOSTB, HOSTB, HOSTC], true) ∧
    ([HOSTB, HOSTB, HOSTC] : List Nat).dedup.length = 2 := by decide

/-- Claim C2, amended: whenever the driver broadcasts a learn message, the
round was in flight and the accepted vector held at least QUORUM = 3 entries;
the entries are acknowledging hosts counted with multiplicity, and need not
be three distinct hosts because a duplicate phase-2b from one host is pushed
again. -/
theorem C2_learn_requires_quorum (d : Ctx) (s : WSM) (p : WSM × List Msg) (m : Msg)
    (hwork : work_state_machine d s = some p) (hm : m ∈ p.2)
    (hl : m.isLearn = true) :
    s.executing_paxos = true ∧ QUORUM ≤ s.accepted.length := by
  by_cases hex : s.executing_paxos = true
  · by_cases hlt : Ballot.lt s.leading s.max_accepted.b
    · exfalso
      rw [work_state_machine, workAux_exec_abandon d s 1 hex hlt] at hwork
      have hex2 : ({ s with executing_paxos := false } : WSM).executing_paxos = false := rfl
      obtain ⟨q, hq, _, hno⟩ := work_idle_spec d { s with executing_paxos := false } hex2
      rw [workAux_idle_fuel d _ 0 1 hex2, ← work_state_machine, hq] at hwork
      cases hwork
      rw [hno m hm] at hl
      cases hl
    · by_cases hpq : s.promises.length < QUORUM
      · exfalso
        rw [work_state_machine, workAux_exec_phase1 d s 1 hex hlt hpq] at hwork
        cases hwork
        simp only [List.mem_map] at hm
        obtain ⟨h2, _, rfl⟩ := hm
        cases hl
      · by_cases haq : s.accepted.length < QUORUM
        · exfalso
          rw [work_state_machine, workAux_exec_phase2 d s 1 hex hlt hpq haq] at hwork
          cases hwork
          simp only [List.mem_map] at hm
          obtain ⟨h2, _, rfl⟩ := hm
          cases hl
        · exact ⟨hex, Nat.le_of_not_lt haq⟩
  · exfalso
    rw [Bool.not_eq_true] at hex
    obtain ⟨q, hq, _, hno⟩ := work_idle_spec d s hex
    rw [hq] at hwork
    cases hwork
    rw [hno m hm] at hl
    cases hl

/-- Claim C2, witness for the amended theorem at a concrete decision state. -/
theorem C2_learn_requires_quorum_witness :
    (work_state_machine ⟨HOSTB, 12⟩ c2decState = some c2decResult ∧
     Msg.learn HOSTA [119] 0 [52] ∈ c2decResult.2 ∧
     (Msg.learn HOSTA [119] 0 [52]).isLearn = true) ∧
    (c2decState.executing_paxos = true ∧ QUORUM ≤ c2decState.accepted.length) :=
  ⟨⟨by decide, by decide, rfl⟩,
   C2_learn_requires_quorum ⟨HOSTB, 12⟩ c2decState c2decResult
     (Msg.learn HOSTA [119] 0 [52]) (by decide) (by decide) rfl⟩

/-- Claim C3.  For a phase-1a message (k, ver, b) from sender c, given that
the load of acceptor state succeeds with (cv, cb, cpv) and the durable map
accepts writes: the handler persists (ver, b, cpv) — with the previously
accepted pvalue unchanged — exactly when c = b.leader, b beats cb and
ver ≥ cv, and in either case replies to c with a phase-1b message carrying
the current (possibly updated) version, promised ballot, and accepted pvalue. -/
theorem C3_phase1a_spec (st : Store) (c : Nat) (k : Bytes) (ver : Nat) (b : Ballot)
    (cv : Nat) (cb : Ballot) (cpv : PValue)
    (hload : get_acceptor_state st k = some (cv, cb, cpv))
    (hput : ∀ k2 v2, st.putOk k2 v2 = true) :
    process_phase1a st c k ver b =
      (if c = b.leader ∧ Ballot.lt cb b ∧ cv ≤ ver
       then [(accKey k, encAcc ver b cpv)] else [],
       [Msg.phase1b c k
          (if c = b.leader ∧ Ballot.lt cb b ∧ cv ≤ ver then ver else cv)
          (if c = b.leader ∧ Ballot.lt cb b ∧ cv ≤ ver then b else cb)
          cpv]) := by
  rw [process_phase1a, hload]
  by_cases hc : c = b.leader ∧ Ballot.lt cb b ∧ cv ≤ ver
  · simp [hc, hput]
  · simp [hc]

/-- Claim C3, witness: fresh acceptor state, a self-named proposer with a
real ballot at version 0 is accepted and persisted. -/
theorem C3_phase1a_spec_witness :
    (get_acceptor_state (Store.ofDb []) [120] = some (0, ⟨0, 0⟩, PValue.sentinel)) ∧
    process_phase1a (Store.ofDb []) 7 [120] 0 ⟨5, 7⟩ =
      (if (7 : Nat) = (⟨5, 7⟩ : Ballot).leader ∧ Ballot.lt ⟨0, 0⟩ ⟨5, 7⟩ ∧ 0 ≤ 0
       then [(accKey [120], encAcc 0 ⟨5, 7⟩ PValue.sentinel)] else [],
       [Msg.phase1b 7 [120]
          (if (7 : Nat) = (⟨5, 7⟩ : Ballot).leader ∧ Ballot.lt ⟨0, 0⟩ ⟨5, 7⟩ ∧ 0 ≤ 0
           then 0 else 0)
          (if (7 : Nat) = (⟨5, 7⟩ : Ballot).leader ∧ Ballot.lt ⟨0, 0⟩ ⟨5, 7⟩ ∧ 0 ≤ 0
           then ⟨5, 7⟩ else ⟨0, 0⟩)
          PValue.sentinel]) :=
  ⟨by decide,
   C3_phase1a_spec (Store.ofDb []) 7 [120] 0 ⟨5, 7⟩ 0 ⟨0, 0⟩ PValue.sentinel
     (by decide) (fun _ _ => rfl)⟩

/-- Claim C4.  For a phase-2a message (k, ver, b, v), given that the load of
acceptor state succeeds with (cv, cb, _) and the durable map accepts writes:
when ver = cv and b = cb the handler persists (ver, b, v) and replies
B (k, ver, b); otherwise it persists nothing and replies R (k). -/
theorem C4_phase2a_spec (st : Store) (c : Nat) (k : Bytes) (ver : Nat) (b : Ballot)
    (v : PValue) (cv : Nat) (cb : Ballot) (cpv : PValue)
    (hload : get_acceptor_state st k = some (cv, cb, cpv))
    (hput : ∀ k2 v2, st.putOk k2 v2 = true) :
    process_phase2a st c k ver b v =
      (if ver = cv ∧ b = cb then [(accKey k, encAcc ver b v)] else [],
       if ver = cv ∧ b = cb then [Msg.phase2b c k ver b]
       else [Msg.retryMsg c k]) := by
  rw [process_phase2a, hload]
  by_cases hc : ver = cv ∧ b = cb
  · obtain ⟨h1, h2⟩ := hc
    subst h1
    subst h2
    simp [hput]
  · simp [hc]

/-- Claim C4, witness: matching version and ballot at a fresh acceptor. -/
theorem C4_phase2a_spec_witness :
    (get_acceptor_state (Store.ofDb []) [124] = some (0, ⟨0, 0⟩, PValue.sentinel)) ∧
    process_phase2a (Store.ofDb []) 9 [124] 0 ⟨0, 0⟩ ⟨⟨6, 9⟩, [54]⟩ =
      (if (0 : Nat) = 0 ∧ (⟨0, 0⟩ : Ballot) = ⟨0, 0⟩
       then [(accKey [124], encAcc 0 ⟨0, 0⟩ ⟨⟨6, 9⟩, [54]⟩)] else [],
       if (0 : Nat) = 0 ∧ (⟨0, 0⟩ : Ballot) = ⟨0, 0⟩
       then [Msg.phase2b 9 [124] 0 ⟨0, 0⟩] else [Msg.retryMsg 9 [124]]) :=
  ⟨by decide,
   C4_phase2a_spec (Store.ofDb []) 9 [124] 0 ⟨0, 0⟩ ⟨⟨6, 9⟩, [54]⟩ 0 ⟨0, 0⟩
     PValue.sentinel (by decide) (fun _ _ => rfl)⟩

/-- Claim C5.  When the driver runs on a round in flight that is not outbid,
with promises and accepts both at quorum and a non-overflowing version: it
broadcasts a learn of (key, version, max_accepted value) to all five hosts,
clears executing_paxos, increments the version by one, replies POCDB_SUCCESS
to the head client and pops the queue exactly when the decided value is the
head value (otherwise the head stays queued), and re-enters the driver. -/
theorem C5_decision_step (d : Ctx) (s : WSM) (c0 : Nat) (v0 : Bytes)
    (rest : List (Nat × Bytes))
    (hq : s.values = (c0, v0) :: rest)
    (hex : s.executing_paxos = true)
    (hnb : ¬ Ballot.lt s.leading s.max_accepted.b)
    (hp : QUORUM ≤ s.promises.length)
    (ha : QUORUM ≤ s.accepted.length)
    (hver : s.version + 1 < 2 ^ 64) :
    work_state_machine d s =
      (work_state_machine d
        { s with executing_paxos := false, version := s.version + 1,
                 values := if s.max_accepted.v = v0 then rest else s.values }).map
        (fun p => (p.1,
          HOSTS.map (fun h2 => Msg.learn h2 s.key s.version s.max_accepted.v) ++
          (if s.max_accepted.v = v0 then [Msg.putResp c0 POCDB_SUCCESS] else []) ++
          p.2)) := by
  have hp2 : ¬ s.promises.length < QUORUM := Nat.not_lt.mpr hp
  have ha2 : ¬ s.accepted.length < QUORUM := Nat.not_lt.mpr ha
  have hu : u64succ s.version = s.version + 1 := Nat.mod_eq_of_lt hver
  rw [work_state_machine, workAux_exec_decision d s 1 c0 v0 rest hex hnb hp2 ha2 hq, hu]
  rw [workAux_idle_fuel d _ 0 1 rfl]
  rfl

/-- Claim C5, witness at a concrete decision state whose decided value is the
head value. -/
theorem C5_decision_step_witness :
    (c5state.values = (2, [50]) :: [] ∧ c5state.executing_paxos = true ∧
     ¬ Ballot.lt c5state.leading c5state.max_accepted.b ∧
     QUORUM ≤ c5state.promises.length ∧ QUORUM ≤ c5state.accepted.length ∧
     c5state.version + 1 < 2 ^ 64) ∧
    work_state_machine ⟨HOSTA, 11⟩ c5state =
      (work_state_machine ⟨HOSTA, 11⟩
        { c5state with executing_paxos := false, version := c5state.version + 1,
                       values := if c5state.max_accepted.v = [50] then []
                                 else c5state.values }).map
        (fun p => (p.1,
          HOSTS.map (fun h2 => Msg.learn h2 c5state.key c5state.version
                                 c5state.max_accepted.v) ++
          (if c5state.max_accepted.v = [50] then [Msg.putResp 2 POCDB_SUCCESS]
           else []) ++ p.2)) :=
  ⟨⟨rfl, rfl, by decide, by decide, by decide, by decide⟩,
   C5_decision_step ⟨HOSTA, 11⟩ c5state 2 [50] [] rfl rfl (by decide) (by decide)
     (by decide) (by decide)⟩

/-- Claim C6, counterexample.  A phase-1b for version 3 at a machine whose
version is 5, reporting the sentinel ballot (not higher than leading), is not
dropped: the handler overwrites version with 3 and records the sender as a
promise, so the state changes. -/
theorem C6_counterexample_stale_phase1b_mutates :
    (WSM.phase1b ⟨HOSTA, 10⟩ c6state HOSTB 3 ⟨0, 0⟩ PValue.sentinel).map
        (fun p => (p.1.version, p.1.promises)) = some (3, [HOSTA, HOSTB]) ∧
    c6state.version = 5 ∧
    (3 ≠ c6state.version ∧ ¬ Ballot.lt c6state.leading ⟨0, 0⟩) := by decide

/-- Claim C6, amended.  A phase-2b whose (ver, b) differs from (version,
leading) leaves every field unchanged and sends nothing.  A phase-1b is never
dropped: one reporting a ballot above leading abandons the round
(executing_paxos false, version overwritten with ver) and re-enters the
driver; one not reporting a higher ballot is processed as a promise and may
also change the state. -/
theorem C6_stale_message_handling (d : Ctx) (s : WSM) (c ver : Nat) (b : Ballot)
    (v : PValue)
    (hstale : ver ≠ s.version ∨ b ≠ s.leading)
    (hhigh : Ballot.lt s.leading b) :
    WSM.phase2b d s c ver b = some (s, []) ∧
    WSM.phase1b d s c ver b v =
      work_state_machine d { s with executing_paxos := false, version := ver } := by
  constructor
  · rw [WSM.phase2b, if_pos hstale]
  · rw [WSM.phase1b, if_pos (Or.inr hhigh)]

/-- Claim C6, witness: a stale higher-ballot message at a concrete state. -/
theorem C6_stale_message_handling_witness :
    ((9 ≠ c6wit.version ∨ (⟨99, HOSTB⟩ : Ballot) ≠ c6wit.leading) ∧
     Ballot.lt c6wit.leading ⟨99, HOSTB⟩) ∧
    (WSM.phase2b ⟨HOSTA, 12⟩ c6wit 6 9 ⟨99, HOSTB⟩ = some (c6wit, []) ∧
     WSM.phase1b ⟨HOSTA, 12⟩ c6wit 6 9 ⟨99, HOSTB⟩ PValue.sentinel =
       work_state_machine ⟨HOSTA, 12⟩
         { c6wit with executing_paxos := false, version := 9 }) :=
  ⟨⟨by decide, by decide⟩,
   C6_stale_message_handling ⟨HOSTA, 12⟩ c6wit 6 9 ⟨99, HOSTB⟩ PValue.sentinel
     (by decide) (by decide)⟩

/-- Claim C7.  The dispatcher is claimed to apply retry to the write state
machine for the key carried by the R message.  It does not: process_retry
never unpacks the key, so with the table c7map (key 0x78 at version 5) an R
message carrying key 0x78 leaves that machine at version 5 and instead
retries the machine for the empty key, whose version becomes 1. -/
theorem C7_retry_routes_to_empty_key :
    (process_retry ⟨HOSTA, 10⟩ c7map 1 [120]).map
      (fun p => ((p.1 [120]).version, (p.1 []).version)) = some (5, 1) := by decide

/-- Claim C8.  The claim covers every value including the empty one.  For an
empty value learned at version 0 the stored record is exactly the 8 version
bytes, the strip condition (strictly longer than 8) fails, and get replies
POCDB_SUCCESS with those 8 bytes instead of the empty value. -/
theorem C8_get_after_empty_value_learn :
    (let db := applyPuts [] (process_learn (Store.ofDb []) [120] 0 []).1
     (process_get (Store.ofDb db) 9 [120]).2 =
       [Msg.getResp 9 POCDB_SUCCESS (le64 0)]) ∧
    le64 0 ≠ ([] : Bytes) := by decide

/-- Claim C9, counterexample.  When the durable-map read fails in the get
path the handler does not abort silently: it replies with
POCDB_SERVER_ERROR, so a reply is emitted. -/
theorem C9_counterexample_get_replies_on_error :
    process_get errStore 4 [120] = ([], [Msg.getResp 4 POCDB_SERVER_ERROR []]) ∧
    (process_get errStore 4 [120]).2 ≠ [] := by decide

/-- Claim C9, amended.  A failed load aborts phase-1a and phase-2a with
nothing persisted and no reply; a failed put likewise aborts them on their
accepting paths; the learn handler persists nothing and never replies; but
the get path still replies, with POCDB_SERVER_ERROR, when its read fails. -/
theorem C9_storage_failure_policy (stG stP : Store) (c : Nat) (k : Bytes)
    (ver : Nat) (b : Ballot) (v : PValue) (w : Bytes) (cv : Nat) (cb : Ballot)
    (cpv : PValue)
    (hfail : get_acceptor_state stG k = none)
    (hload : get_acceptor_state stP k = some (cv, cb, cpv))
    (hput : ∀ k2 v2, stP.putOk k2 v2 = false)
    (hlrn : stG.get (lrnKey k) = GetRes.ioerr) :
    process_phase1a stG c k ver b = ([], []) ∧
    process_phase2a stG c k ver b v = ([], []) ∧
    (c = b.leader ∧ Ballot.lt cb b ∧ cv ≤ ver →
      process_phase1a stP c k ver b = ([], [])) ∧
    (ver = cv ∧ b = cb → process_phase2a stP c k ver b v = ([], [])) ∧
    process_learn stP k ver w = ([], []) ∧
    process_get stG c k = ([], [Msg.getResp c POCDB_SERVER_ERROR []]) := by
  refine ⟨?_, ?_, ?_, ?_, ?_, ?_⟩
  · rw [process_phase1a, hfail]
  · rw [process_phase2a, hfail]
  · intro hacc
    rw [process_phase1a, hload]
    simp [hacc, hput]
  · intro hmatch
    rw [process_phase2a, hload]
    simp [hmatch, hput]
  · rw [process_learn]
    simp [hput]
  · rw [process_get, hlrn]

/-- Claim C9, witness: an all-failing reader and an all-failing writer over a
fresh database, with an accepting phase-1a condition and a matching phase-2a
condition. -/
theorem C9_storage_failure_policy_witness :
    (get_acceptor_state errStore [122] = none ∧
     get_acceptor_state noPutStore [122] = some (0, ⟨0, 0⟩, PValue.sentinel) ∧
     errStore.get (lrnKey [122]) = GetRes.ioerr) ∧
    (process_phase1a errStore 8 [122] 0 ⟨6, 8⟩ = ([], []) ∧
     process_phase2a errStore 8 [122] 0 ⟨6, 8⟩ PValue.sentinel = ([], []) ∧
     ((8 : Nat) = (⟨6, 8⟩ : Ballot).leader ∧ Ballot.lt ⟨0, 0⟩ ⟨6, 8⟩ ∧ 0 ≤ 0 →
       process_phase1a noPutStore 8 [122] 0 ⟨6, 8⟩ = ([], [])) ∧
     ((0 : Nat) = 0 ∧ (⟨6, 8⟩ : Ballot) = ⟨0, 0⟩ →
       process_phase2a noPutStore 8 [122] 0 ⟨6, 8⟩ PValue.sentinel = ([], [])) ∧
     process_learn noPutStore [122] 0 [55] = ([], []) ∧
     process_get errStore 8 [122] = ([], [Msg.getResp 8 POCDB_SERVER_ERROR []])) :=
  ⟨⟨by decide, by decide, rfl⟩,
   C9_storage_failure_policy errStore noPutStore 8 [122] 0 ⟨6, 8⟩ PValue.sentinel
     [55] 0 ⟨0, 0⟩ PValue.sentinel (by decide) (by decide) (fun _ _ => rfl) rfl⟩

/-- Claim C10.  In every reachable state of a write state machine,
executing_paxos implies a non-empty pending queue; consequently every entry
point completes on a reachable state — that is, the driver never touches the
front of an empty queue (the none outcome marks exactly those accesses along
with the provably unreachable fuel exhaustion). -/
theorem C10_executing_implies_pending (d : Ctx) (s : WSM) (h : Reach d s) :
    (s.executing_paxos = true → s.values ≠ []) ∧
    (∀ c v, WSM.write d s c v ≠ none) ∧
    (∀ c ver b v, WSM.phase1b d s c ver b v ≠ none) ∧
    (∀ c ver b, WSM.phase2b d s c ver b ≠ none) ∧
    WSM.retry d s ≠ none := by
  have hinv := reach_inv d s h
  refine ⟨hinv, ?_, ?_, ?_, ?_⟩
  · intro c v
    obtain ⟨p, hp, _⟩ := write_total_inv d s c v
    rw [hp]
    exact Option.some_ne_none p
  · intro c ver b v
    obtain ⟨p, hp, _⟩ := phase1b_total_inv d s c ver b v hinv
    rw [hp]
    exact Option.some_ne_none p
  · intro c ver b
    obtain ⟨p, hp, _⟩ := phase2b_total_inv d s c ver b hinv
    rw [hp]
    exact Option.some_ne_none p
  · obtain ⟨p, hp, _⟩ := retry_total_inv d s
    rw [hp]
    exact Option.some_ne_none p

/-- Claim C10, witness at the freshly constructed machine for key 0x7d. -/
theorem C10_executing_implies_pending_witness :
    Reach ⟨HOSTA, 10⟩ (initWSM [125]) ∧
    (((initWSM [125]).executing_paxos = true → (initWSM [125]).values ≠ []) ∧
     (∀ c v, WSM.write ⟨HOSTA, 10⟩ (initWSM [125]) c v ≠ none) ∧
     (∀ c ver b v, WSM.phase1b ⟨HOSTA, 10⟩ (initWSM [125]) c ver b v ≠ none) ∧
     (∀ c ver b, WSM.phase2b ⟨HOSTA, 10⟩ (initWSM [125]) c ver b ≠ none) ∧
     WSM.retry ⟨HOSTA, 10⟩ (initWSM [125]) ≠ none) :=
  ⟨Reach.init [125],
   C10_executing_implies_pending ⟨HOSTA, 10⟩ (initWSM [125]) (Reach.init [125])⟩

end Pocdb
